import Mathlib

/-!
Verification development for the Hermes buffer organizer
(`src/buffer_organizer.cc`, `src/rpc_thallium.h`).

The C++ code is shallowly embedded: `f32`/`double` arithmetic is modelled
by exact rational arithmetic over `ℚ`, machine integers (`u32`, `u64`,
`size_t`, `i64`) by `ℕ`/`ℤ` (none of the modelled computations can
overflow their C++ widths on the inputs considered), byte buffers by
`List ℕ`, and the external collaborators (metadata manager, buffer pool,
RPC) by explicit environment records holding the pure snapshots the code
reads through them.
-/

namespace Hermes

/-- Model of the MEGABYTES size macro: `MEGABYTES(n) = n * 1024 * 1024`. -/
def MEGABYTES (n : ℕ) : ℕ := n * 1024 * 1024

/-- BufferID: a (node id, pool-local index) pair packed into one 64-bit
integer; the code compares and serializes it through its `as_int` view,
so the model keeps only that view. -/
structure BufferID where
  as_int : ℕ
deriving DecidableEq

/-- TargetID: a (node id, device index) pair packed into one 64-bit
integer, modelled by its `as_int` view. -/
structure TargetID where
  as_int : ℕ
deriving DecidableEq

/-- BlobID: a (node id, blob index) pair packed into one 64-bit integer,
modelled by its `as_int` view. -/
structure BlobID where
  as_int : ℕ
deriving DecidableEq

/-- BucketID packed union, modelled by its `as_int` view. -/
structure BucketID where
  as_int : ℕ
deriving DecidableEq

/-- VBucketID packed union, modelled by its `as_int` view. -/
structure VBucketID where
  as_int : ℕ
deriving DecidableEq

/-- BufferInfo: snapshot of one buffer taken by `LocalGetBufferInfo` —
its id, the owning device's bandwidth in MB/s (`f32`, modelled by `ℚ`)
and its used size in bytes (`u32`, modelled by `ℕ`).  The C++
`operator==` compares exactly these three fields, which coincides with

structure equality here. -/

structure BufferInfo where
  id : BufferID
  bandwidth_mbps : ℚ
  size : ℕ
deriving DecidableEq

/-- TargetInfo from buffer_organizer.cc: a target id, its bandwidth in
MB/s and its remaining capacity in bytes (`u64`). -/
structure TargetInfo where
  id : TargetID
  bandwidth_mbps : ℚ
  capacity : ℕ
deriving DecidableEq

/-- The two fields of the shared-memory BufferPool that the cost model
reads: the pool-wide minimum and maximum device bandwidths (MB/s). -/
structure BufferPool where
  min_device_bw_mbps : ℚ
  max_device_bw_mbps : ℚ
deriving DecidableEq

/-- BytesToMegabytes from buffer_organizer.cc:
`(f32)bytes / (f32)MEGABYTES(1)`, in exact arithmetic. -/
def BytesToMegabytes (bytes : ℕ) : ℚ :=
  (bytes : ℚ) / (MEGABYTES 1 : ℚ)

/-- The divisor `range = max_seconds - min_seconds` computed inside
`NormalizeAccessScore` (both terms multiply the blob size by a pool
bandwidth, exactly as the source does). -/
def accessScoreRange (pool : BufferPool) (size_mb : ℚ) : ℚ :=
  size_mb * pool.max_device_bw_mbps - size_mb * pool.min_device_bw_mbps

/-- NormalizeAccessScore from buffer_organizer.cc (lines 68-79),
translated literally: `min_seconds = size_mb * min_device_bw_mbps`,
`max_seconds = size_mb * max_device_bw_mbps`,
`range = max_seconds - min_seconds`, and the result is
`(raw_score - min_seconds) / range`.  The C++ division is unguarded; in
this exact model `x / 0 = 0` by Lean's convention, whereas the C++ `f32`
division by a zero `range` yields an IEEE NaN or infinity.
`accessScoreRange` names the divisor so that theorems can speak about
it. -/
def NormalizeAccessScore (pool : BufferPool) (raw_score size_mb : ℚ) : ℚ :=
  let min_seconds := size_mb * pool.min_device_bw_mbps
  let max_seconds := size_mb * pool.max_device_bw_mbps
  let range := max_seconds - min_seconds
  let adjusted_score := raw_score - min_seconds
  adjusted_score / range

/-- Accumulated `raw_score` of the loop in `ComputeBlobAccessScore`:
the sum over the buffers of `size_in_mb * (1 / bandwidth_mbps)`. -/
def rawAccessScore (buffer_info : List BufferInfo) : ℚ :=
  (buffer_info.map fun b => BytesToMegabytes b.size * (1 / b.bandwidth_mbps)).sum

/-- Accumulated `total_blob_size_mb` of the loop in
`ComputeBlobAccessScore`: the sum of the buffer sizes in MB. -/
def totalBlobSizeMB (buffer_info : List BufferInfo) : ℚ :=
  (buffer_info.map fun b => BytesToMegabytes b.size).sum

/-- ComputeBlobAccessScore from buffer_organizer.cc (lines 99-116): the
loop accumulates `raw_score` and `total_blob_size_mb` and the result is
their normalization against the pool bandwidths. -/
def ComputeBlobAccessScore (pool : BufferPool)
    (buffer_info : List BufferInfo) : ℚ :=
  NormalizeAccessScore pool (rawAccessScore buffer_info)
    (totalBlobSizeMB buffer_info)

/-- Insertion of an element into a list according to a boolean
non-strict order; building block of `stdSort`. -/
def orderedInsert (le : α → α → Bool) (a : α) : List α → List α
  | [] => [a]
  | b :: l => if le a b then a :: b :: l else b :: orderedInsert le a l

/-- Model of `std::sort` with a strict C++ comparator `comp`: an
insertion sort on the induced non-strict order `le a b = !(comp b a)`.
`std::sort`'s postcondition is exactly that consecutive elements `a, b`
of the result satisfy `¬ comp b a`; which permutation is produced for
tied elements is unspecified in C++, so any sort meeting that
postcondition is a faithful model. -/
def stdSort (le : α → α → Bool) : List α → List α
  | [] => []
  | a :: l => orderedInsert le a (stdSort le l)

/-- Comparator instantiated by `HERMES_BUFFER_INFO_COMPARATOR(increasing, >)`
in `SortBufferInfo`: equal bandwidths fall through to `size >`, otherwise
`bandwidth_mbps > bandwidth_mbps`. -/
def increasing_buffer_info_comparator (lhs rhs : BufferInfo) : Bool :=
  if lhs.bandwidth_mbps = rhs.bandwidth_mbps then decide (lhs.size > rhs.size)
  else decide (lhs.bandwidth_mbps > rhs.bandwidth_mbps)

/-- Comparator instantiated by `HERMES_BUFFER_INFO_COMPARATOR(decreasing, <)`
in `SortBufferInfo`. -/
def decreasing_buffer_info_comparator (lhs rhs : BufferInfo) : Bool :=
  if lhs.bandwidth_mbps = rhs.bandwidth_mbps then decide (lhs.size > rhs.size)
  else decide (lhs.bandwidth_mbps < rhs.bandwidth_mbps)

/-- SortBufferInfo from buffer_organizer.cc (lines 117-140):
`std::sort` with the increasing comparator when `increasing` is true,
with the decreasing comparator otherwise. -/
def SortBufferInfo (buffer_info : List BufferInfo) (increasing : Bool) :
    List BufferInfo :=
  if increasing then
    stdSort (fun a b => !(increasing_buffer_info_comparator b a)) buffer_info
  else
    stdSort (fun a b => !(decreasing_buffer_info_comparator b a)) buffer_info

/-- The strict comparator used by `SortTargetInfo` when `increasing` is
true: `lhs.bandwidth_mbps > rhs.bandwidth_mbps`. -/
def increasing_target_info_comparator (lhs rhs : TargetInfo) : Bool :=
  decide (lhs.bandwidth_mbps > rhs.bandwidth_mbps)

/-- The strict comparator used by `SortTargetInfo` when `increasing` is
false: `lhs.bandwidth_mbps < rhs.bandwidth_mbps`. -/
def decreasing_target_info_comparator (lhs rhs : TargetInfo) : Bool :=
  decide (lhs.bandwidth_mbps < rhs.bandwidth_mbps)

/-- SortTargetInfo from buffer_organizer.cc (lines 142-159):
`std::sort` with the `>` comparator when `increasing` is true and the
`<` comparator when it is false. -/
def SortTargetInfo (target_info : List TargetInfo) (increasing : Bool) :
    List TargetInfo :=
  if increasing then
    stdSort (fun a b => !(increasing_target_info_comparator b a)) target_info
  else
    stdSort (fun a b => !(decreasing_target_info_comparator b a)) target_info

/-- BufferHeader fields read by `BoMove`: the buffer's capacity (`u32`)
and its used byte count (`u32`). -/
structure BufferHeader where
  capacity : ℕ
  used : ℕ
deriving DecidableEq

/-- Environment of one `BoMove` execution: the shared-memory state the
code reaches through `GetHeaderByBufferId`, `LocalReadBufferById` and
`LocalLockBlob`.  `headers` returns `none` exactly when the C++ lookup
returns a null pointer; `contents` gives a buffer's byte contents;
`lockOk` tells whether `LocalLockBlob` succeeds for a blob. -/
structure MoveContext where
  headers : BufferID → Option BufferHeader
  contents : BufferID → List ℕ
  lockOk : BlobID → Bool

/-- One `LocalWriteBufferById(context, dest, blob_portion, offset)` call
issued by `BoMove`: the destination buffer, the `offset` argument passed
to the write, and the bytes of `blob_portion`. -/
structure WriteOp where
  dest : BufferID
  offset : ℕ
  data : List ℕ
deriving DecidableEq

/-- The destination loop of `BoMove` (buffer_organizer.cc lines 194-213),
translated literally: for each destination whose header resolves,
`portion_size = min capacity remaining_src_size`, the portion is the
`portion_size` bytes of the source data starting at `offset`, written at
offset `offset`, after which `offset` advances and `remaining_src_size`
shrinks by `portion_size`; an unresolved header only logs a warning and
leaves `offset` and `remaining_src_size` unchanged.  Returns the list of
writes together with the final `remaining_src_size`. -/
def boMoveLoop (ctx : MoveContext) (blobData : List ℕ) :
    List BufferID → ℕ → ℕ → List WriteOp × ℕ
  | [], _, remaining => ([], remaining)
  | dest :: rest, offset, remaining =>
    match ctx.headers dest with
    | some dest_header =>
        let portion_size := min dest_header.capacity remaining
        let blob_portion := (blobData.drop offset).take portion_size
        let r := boMoveLoop ctx blobData rest (offset + portion_size)
          (remaining - portion_size)
        (⟨dest, offset, blob_portion⟩ :: r.1, r.2)
    | none => boMoveLoop ctx blobData rest offset remaining

/-- BoMove from buffer_organizer.cc (lines 169-222): under the blob lock
and with the source header resolved, it reads the source's `used` bytes
and runs the destination loop with `offset = 0` and
`remaining_src_size = used`.  `none` models the two warning paths that
perform no write (lock not acquired, source header unresolved);
otherwise the result is the writes performed and the final
`remaining_src_size` that the `assert` checks against 0. -/
def BoMove (ctx : MoveContext) (src : BufferID)
    (destinations : List BufferID) (blob_id : BlobID) :
    Option (List WriteOp × ℕ) :=
  if ctx.lockOk blob_id then
    match ctx.headers src with
    | some src_header =>
        let blobData := (ctx.contents src).take src_header.used
        some (boMoveLoop ctx blobData destinations 0 src_header.used)
    | none => none
  else none

/-- Sum of the capacities of the destinations whose headers resolve
(an unresolved destination contributes nothing). -/
def destCapacitySum (ctx : MoveContext) (dests : List BufferID) : ℕ :=
  (dests.map fun d =>
    match ctx.headers d with
    | some h => h.capacity
    | none => 0).sum

/-- BoPriority enum from the data model. -/
inductive BoPriority
  | kHigh
  | kLow
deriving DecidableEq

/-- Environment of one `LocalOrganizeBlob` run: the pure snapshots the
code obtains from its collaborators.  `target_info` is the zipped result
of `LocalGetNodeTargets`, `GetBandwidths` and
`GetRemainingTargetCapacities` (the code re-takes this snapshot on every
loop iteration; in this pure model the snapshot is stable, which is the
behaviour when no concurrent allocation changes the capacities), and
`getBuffers` models the buffer pool's `GetBuffers(schema)`, which may
return the empty list when allocation fails. -/
structure OrganizeEnv where
  pool : BufferPool
  target_info : List TargetInfo
  getBuffers : List (ℕ × TargetID) → List BufferID

/-- One `LocalEnqueueBoMove(context, src, dest, blob_id, priority)` call
made by `LocalOrganizeBlob`, together with the `new_access_score` the
code had computed at the enqueue point (recorded so that theorems can
speak about the predicted score of each enqueued move). -/
structure MoveRecord where
  src : BufferID
  dest : List BufferID
  priority : BoPriority
  new_access_score : ℚ
deriving DecidableEq

/-- The inner target-selection loop of `LocalOrganizeBlob`
(buffer_organizer.cc lines 300-307): walk the sorted targets and break
at the first one whose `capacity` is strictly greater than the buffer's
`size` (the source comparison is `target_info[j].capacity >
buffer_info[i].size`). -/
def findTarget : List TargetInfo → ℕ → Option TargetInfo
  | [], _ => none
  | t :: rest, size =>
      if t.capacity > size then some t else findTarget rest size

/-- Importance-score resolution of `LocalOrganizeBlob`
(buffer_organizer.cc lines 272-275): the explicit score, unless it is
the sentinel -1, in which case the score stored in the metadata manager
(`LocalGetBlobImportanceScore`) is used. -/
def importanceScore (explicit_importance_score stored_importance_score : ℚ) :
    ℚ :=
  if explicit_importance_score = -1 then stored_importance_score
  else explicit_importance_score

/-- The `move_is_valid` block of `LocalOrganizeBlob` (buffer_organizer.cc
lines 330-342): start from `true` and reject the move when it overshoots
the importance score by more than `epsilon` in the direction of travel. -/
def moveIsValid (increasing_access_score : Bool)
    (importance_score new_access_score : ℚ) (epsilon : ℚ) : Bool :=
  if increasing_access_score then
    !decide (new_access_score > importance_score ∧
      new_access_score - importance_score > epsilon)
  else
    !decide (new_access_score < importance_score ∧
      importance_score - new_access_score > epsilon)

/-- The conditional `LocalEnqueueBoMove(context, src_buffer_id, dest,
blob_id, BoPriority::kLow)` of buffer_organizer.cc lines 344-348: the
singleton enqueue when the gate passes, nothing otherwise. -/
def gateEnqueue (increasing_access_score : Bool)
    (importance_score new_access_score epsilon : ℚ)
    (src_buffer_id : BufferID) (dest : List BufferID) : List MoveRecord :=
  if moveIsValid increasing_access_score importance_score new_access_score
      epsilon then
    [MoveRecord.mk src_buffer_id dest BoPriority.kLow new_access_score]
  else []

/-- The main loop of `LocalOrganizeBlob` (buffer_organizer.cc lines
283-353) over the sorted buffer list.  `buffer_info` is the full sorted
vector (used to build `new_buffer_info`); the second list argument is
the tail still to be iterated.  Per iteration: sort the target
snapshot, select a target (`findTarget`); when none is found
`src_buffer_id` stays the zero-initialized id and `schema` stays empty,
exactly as in the source; `dest = GetBuffers(schema)` with an empty
result causing `continue`; otherwise substitute the chosen target's
bandwidth into the source buffer's rows, recompute the score, apply the
overshoot validity gate, enqueue a low-priority move when valid, and
break out of the loop when the new score is within `epsilon` of the
importance score. -/
def organizeLoop (env : OrganizeEnv) (importance_score epsilon : ℚ)
    (increasing_access_score : Bool) (buffer_info : List BufferInfo) :
    List BufferInfo → List MoveRecord
  | [] => []
  | b :: pending =>
    let target_info := SortTargetInfo env.target_info increasing_access_score
    let sel := findTarget target_info b.size
    let src_buffer_id : BufferID :=
      match sel with
      | some _ => b.id
      | none => ⟨0⟩
    let schema : List (ℕ × TargetID) :=
      match sel with
      | some t => [(b.size, t.id)]
      | none => []
    let new_bandwidth_mbps : ℚ :=
      match sel with
      | some t => t.bandwidth_mbps
      | none => 0
    let dest := env.getBuffers schema
    if dest = [] then
      organizeLoop env importance_score epsilon increasing_access_score
        buffer_info pending
    else
      let new_buffer_info := buffer_info.map fun x =>
        if x.id.as_int = src_buffer_id.as_int then
          { x with bandwidth_mbps := new_bandwidth_mbps }
        else x
      let new_access_score := ComputeBlobAccessScore env.pool new_buffer_info
      let enqueued := gateEnqueue increasing_access_score importance_score
        new_access_score epsilon src_buffer_id dest
      if |importance_score - new_access_score| < epsilon then enqueued
      else
        enqueued ++ organizeLoop env importance_score epsilon
          increasing_access_score buffer_info pending

/-- LocalOrganizeBlob from buffer_organizer.cc (lines 265-354), with the
metadata lookups abstracted into inputs: `buffer_info_in` is the
snapshot `GetBufferInfo` builds for the blob's buffer-id list, and
`stored_importance_score` is what `LocalGetBlobImportanceScore` would
return when the explicit score is the sentinel -1.  Returns the list of
enqueued low-priority moves. -/
def LocalOrganizeBlob (env : OrganizeEnv) (buffer_info_in : List BufferInfo)
    (explicit_importance_score stored_importance_score epsilon : ℚ) :
    List MoveRecord :=
  let importance_score :=
    importanceScore explicit_importance_score stored_importance_score
  let access_score := ComputeBlobAccessScore env.pool buffer_info_in
  let increasing_access_score := decide (importance_score > access_score)
  let buffer_info := SortBufferInfo buffer_info_in increasing_access_score
  organizeLoop env importance_score epsilon increasing_access_score
    buffer_info buffer_info

/-- Observable events of a flush task, in execution order: the blob
lock/unlock, the file operations, the `StdIoPersistBlob` delegate, and
the per-vbucket flush-counter adjustments (`IncrementFlushCount` /
`DecrementFlushCount`, which route to `LocalAdjustFlushCount` with +1 /
-1 on the atomic counter). -/
inductive FlushEvent
  | lockBlob
  | unlockBlob
  | openFile
  | flockEx
  | persistBlob
  | flockUn
  | closeFile
  | incrementFlushCount
  | decrementFlushCount
deriving DecidableEq

/-- Outcomes of the fallible system calls made by one `FlushBlob` body:
whether `LockBlob` succeeds, whether `open` returns a valid fd, and
whether the two `flock` calls and `close` succeed.  Any failing `open`,
`flock` or `close` reports through `FailedLibraryCall`, which by
contract does not return, so the task never completes on those paths. -/
structure FlushEnv where
  lockOk : Bool
  openOk : Bool
  flockExOk : Bool
  flockUnOk : Bool
  closeOk : Bool
deriving DecidableEq

/-- The file section of `FlushBlob` (buffer_organizer.cc lines 380-414):
open, exclusive flock, persist, unlock flock, close; `none` models a
`FailedLibraryCall` abort. -/
def flushFileEvents (env : FlushEnv) : Option (List FlushEvent) :=
  if env.openOk then
    if env.flockExOk then
      if env.flockUnOk then
        if env.closeOk then
          some [FlushEvent.openFile, FlushEvent.flockEx,
            FlushEvent.persistBlob, FlushEvent.flockUn, FlushEvent.closeFile]
        else none
      else none
    else none
  else none

/-- FlushBlob from buffer_organizer.cc (lines 377-428): when the blob
lock is acquired, run the file section and release the lock; whether or
not the lock was acquired, decrement the flush counter afterwards when
`async` is set.  The result is the event trace of a completed execution,
or `none` when a `FailedLibraryCall` aborted the task. -/
def FlushBlob (env : FlushEnv) (async : Bool) : Option (List FlushEvent) :=
  match (if env.lockOk then
      (flushFileEvents env).map fun es =>
        FlushEvent.lockBlob :: es ++ [FlushEvent.unlockBlob]
    else some []) with
  | none => none
  | some locked_part =>
      some (locked_part ++
        if async then [FlushEvent.decrementFlushCount] else [])

/-- Result of `LocalEnqueueFlushingTask`: the boolean returned to the
caller, the events executed before dispatching to the thread pool, and
the `async` flag the dispatched `FlushBlob` closure is bound with
(`none` when nothing was dispatched). -/
structure EnqueueFlushResult where
  result : Bool
  pre_events : List FlushEvent
  dispatched : Option Bool
deriving DecidableEq

/-- LocalEnqueueFlushingTask from buffer_organizer.cc (lines 438-454):
unless the blob is in swap, increment the flush counter, dispatch
`FlushBlob` with `async = true` to the pool, and return true. -/
def LocalEnqueueFlushingTask (blobIsInSwap : Bool) : EnqueueFlushResult :=
  if !blobIsInSwap then
    ⟨true, [FlushEvent.incrementFlushCount], some true⟩
  else ⟨false, [], none⟩

/-- One value on the Thallium archive wire, tagged with the width and
interpretation the serializers in rpc_thallium.h use for it: the ID
unions travel as 64-bit integers, `u32`/`size_t` fields as their widths,
enum values as 32-bit `int` casts, and the `f32` bandwidth verbatim
(modelled by `ℚ` like everywhere in this development). -/
inductive WireVal
  | u64 (v : ℕ)
  | u32 (v : ℕ)
  | i32 (v : ℤ)
  | f32 (v : ℚ)
  | usize (v : ℕ)
deriving DecidableEq

/-- serialize(A, BufferID) from rpc_thallium.h: `ar & buffer_id.as_int`. -/
def serializeBufferID (x : BufferID) : List WireVal :=
  [WireVal.u64 x.as_int]

/-- Load direction of serialize(A, BufferID). -/
def deserializeBufferID : List WireVal → Option (BufferID × List WireVal)
  | WireVal.u64 v :: rest => some (⟨v⟩, rest)
  | _ => none

/-- serialize(A, BucketID) from rpc_thallium.h: `ar & bucket_id.as_int`. -/
def serializeBucketID (x : BucketID) : List WireVal :=
  [WireVal.u64 x.as_int]

/-- Load direction of serialize(A, BucketID). -/
def deserializeBucketID : List WireVal → Option (BucketID × List WireVal)
  | WireVal.u64 v :: rest => some (⟨v⟩, rest)
  | _ => none

/-- serialize(A, VBucketID) from rpc_thallium.h: `ar & vbucket_id.as_int`. -/
def serializeVBucketID (x : VBucketID) : List WireVal :=
  [WireVal.u64 x.as_int]

/-- Load direction of serialize(A, VBucketID). -/
def deserializeVBucketID : List WireVal → Option (VBucketID × List WireVal)
  | WireVal.u64 v :: rest => some (⟨v⟩, rest)
  | _ => none

/-- serialize(A, BlobID) from rpc_thallium.h: `ar & blob_id.as_int`. -/
def serializeBlobID (x : BlobID) : List WireVal :=
  [WireVal.u64 x.as_int]

/-- Load direction of serialize(A, BlobID). -/
def deserializeBlobID : List WireVal → Option (BlobID × List WireVal)
  | WireVal.u64 v :: rest => some (⟨v⟩, rest)
  | _ => none

/-- serialize(A, TargetID) from rpc_thallium.h: `ar & target_id.as_int`. -/
def serializeTargetID (x : TargetID) : List WireVal :=
  [WireVal.u64 x.as_int]

/-- Load direction of serialize(A, TargetID). -/
def deserializeTargetID : List WireVal → Option (TargetID × List WireVal)
  | WireVal.u64 v :: rest => some (⟨v⟩, rest)
  | _ => none

/-- SwapBlob: (node_id, offset, size, bucket_id) of a blob spilled to a
swap file. -/
structure SwapBlob where
  node_id : ℕ
  offset : ℕ
  size : ℕ
  bucket_id : BucketID
deriving DecidableEq

/-- serialize(A, SwapBlob) from rpc_thallium.h: node_id, offset, size,
bucket_id, in that order. -/
def serializeSwapBlob (x : SwapBlob) : List WireVal :=
  WireVal.u32 x.node_id :: WireVal.u64 x.offset :: WireVal.usize x.size ::
    serializeBucketID x.bucket_id

/-- Load direction of serialize(A, SwapBlob). -/
def deserializeSwapBlob : List WireVal → Option (SwapBlob × List WireVal)
  | WireVal.u32 n :: WireVal.u64 o :: WireVal.usize s :: rest =>
      match deserializeBucketID rest with
      | some (b, rest2) => some (⟨n, o, s, b⟩, rest2)
      | none => none
  | _ => none

/-- serialize(A, BufferInfo) from rpc_thallium.h: id, bandwidth_mbps,
size, in that order. -/
def serializeBufferInfo (x : BufferInfo) : List WireVal :=
  serializeBufferID x.id ++
    [WireVal.f32 x.bandwidth_mbps, WireVal.u32 x.size]

/-- Load direction of serialize(A, BufferInfo). -/
def deserializeBufferInfo (l : List WireVal) :
    Option (BufferInfo × List WireVal) :=
  match deserializeBufferID l with
  | some (id, WireVal.f32 bw :: WireVal.u32 sz :: rest) =>
      some (⟨id, bw, sz⟩, rest)
  | _ => none

/-- BoOperation enum: the three buffer-organizer task kinds. -/
inductive BoOperation
  | kMove
  | kCopy
  | kDelete
deriving DecidableEq

/-- The `(int)op` cast in save(A, BoOperation). -/
def boOperationToInt : BoOperation → ℤ
  | BoOperation.kMove => 0
  | BoOperation.kCopy => 1
  | BoOperation.kDelete => 2

/-- The `(BoOperation)val` cast in load(A, BoOperation); `none` for an
integer outside the enumeration. -/
def boOperationOfInt : ℤ → Option BoOperation
  | 0 => some BoOperation.kMove
  | 1 => some BoOperation.kCopy
  | 2 => some BoOperation.kDelete
  | _ => none

/-- save(A, BoOperation) from rpc_thallium.h: write the int cast of the
enum. -/
def saveBoOperation (op : BoOperation) : List WireVal :=
  [WireVal.i32 (boOperationToInt op)]

/-- load(A, BoOperation) from rpc_thallium.h: read an int and cast it
back. -/
def loadBoOperation : List WireVal → Option (BoOperation × List WireVal)
  | WireVal.i32 v :: rest =>
      match boOperationOfInt v with
      | some op => some (op, rest)
      | none => none
  | _ => none

/-- BoArgs: the C++ union of move/copy/delete argument structs.  All
variants alias the same memory — a BufferID word and (for move/copy) a
TargetID word — and serialize(A, BoArgs) reads and writes every variant
through the `move_args` view, so the union is modelled by those two
words. -/
structure BoArgs where
  move_args_src : BufferID
  move_args_dest : TargetID
deriving DecidableEq

/-- serialize(A, BoArgs) from rpc_thallium.h: `move_args.src` then
`move_args.dest`. -/
def serializeBoArgs (x : BoArgs) : List WireVal :=
  serializeBufferID x.move_args_src ++ serializeTargetID x.move_args_dest

/-- Load direction of serialize(A, BoArgs). -/
def deserializeBoArgs (l : List WireVal) : Option (BoArgs × List WireVal) :=
  match deserializeBufferID l with
  | some (src, rest) =>
      match deserializeTargetID rest with
      | some (dest, rest2) => some (⟨src, dest⟩, rest2)
      | none => none
  | none => none

/-- BoTask: an operation tag together with its argument union. -/
structure BoTask where
  op : BoOperation
  args : BoArgs
deriving DecidableEq

/-- serialize(A, BoTask) from rpc_thallium.h: `ar & bo_task.op` then
`ar & bo_task.args`. -/
def serializeBoTask (x : BoTask) : List WireVal :=
  saveBoOperation x.op ++ serializeBoArgs x.args

/-- Load direction of serialize(A, BoTask). -/
def deserializeBoTask (l : List WireVal) : Option (BoTask × List WireVal) :=
  match loadBoOperation l with
  | some (op, rest) =>
      match deserializeBoArgs rest with
      | some (args, rest2) => some (⟨op, args⟩, rest2)
      | none => none
  | none => none

/-- ThresholdViolation enum.  Its constructor list is not among these
sources (only its int-cast save/load in rpc_thallium.h is), so the enum
is modelled by the integer value through which the code serializes it. -/
structure ThresholdViolation where
  val : ℤ
deriving DecidableEq

/-- save(A, ThresholdViolation) from rpc_thallium.h. -/
def saveThresholdViolation (x : ThresholdViolation) : List WireVal :=
  [WireVal.i32 x.val]

/-- load(A, ThresholdViolation) from rpc_thallium.h. -/
def loadThresholdViolation :
    List WireVal → Option (ThresholdViolation × List WireVal)
  | WireVal.i32 v :: rest => some (⟨v⟩, rest)
  | _ => none

/-- ViolationInfo: a target, the violation kind, and the violation
size. -/
structure ViolationInfo where
  target_id : TargetID
  violation : ThresholdViolation
  violation_size : ℕ
deriving DecidableEq

/-- serialize(A, ViolationInfo) from rpc_thallium.h: target_id,
violation, violation_size, in that order. -/
def serializeViolationInfo (x : ViolationInfo) : List WireVal :=
  serializeTargetID x.target_id ++ saveThresholdViolation x.violation ++
    [WireVal.usize x.violation_size]

/-- Load direction of serialize(A, ViolationInfo). -/
def deserializeViolationInfo (l : List WireVal) :
    Option (ViolationInfo × List WireVal) :=
  match deserializeTargetID l with
  | some (t, rest) =>
      match loadThresholdViolation rest with
      | some (v, WireVal.usize s :: rest2) => some (⟨t, v, s⟩, rest2)
      | _ => none
  | none => none

/-- PrefetchHint enum.  Its constructor list is not among these sources
(only its int-cast save/load in rpc_thallium.h is), so it is modelled by
the integer value through which the code serializes it. -/
structure PrefetchHint where
  val : ℤ
deriving DecidableEq

/-- PrefetchContext: a hint and a read-ahead count (`int`). -/
structure PrefetchContext where
  hint_ : PrefetchHint
  read_ahead_ : ℤ
deriving DecidableEq

/-- serialize(A, PrefetchContext) from rpc_thallium.h: `hint_` (through
the int-cast save of PrefetchHint) then `read_ahead_`. -/
def serializePrefetchContext (x : PrefetchContext) : List WireVal :=
  [WireVal.i32 x.hint_.val, WireVal.i32 x.read_ahead_]

/-- Load direction of serialize(A, PrefetchContext). -/
def deserializePrefetchContext :
    List WireVal → Option (PrefetchContext × List WireVal)
  | WireVal.i32 h :: WireVal.i32 r :: rest => some (⟨⟨h⟩, r⟩, rest)
  | _ => none

theorem normalizeAccessScore_eq_div (pool : BufferPool) (raw s : ℚ) :
    NormalizeAccessScore pool raw s =
      (raw - s * pool.min_device_bw_mbps) / accessScoreRange pool s := rfl

/-- C1: the claim says the score lies in [0,1] and is 0 for an
all-pool-max-bandwidth placement.  The code instead multiplies the blob
size by the pool bandwidths (`min_seconds = size_mb * min_device_bw_mbps`,
a quantity that is not a time), so with pool bandwidths min = 1, max = 2
and a single 1 MB buffer whose bandwidth equals the pool maximum the
score evaluates to -1/2: negative, outside [0,1], and not 0. -/
theorem computeBlobAccessScore_not_normalized :
    ComputeBlobAccessScore ⟨1, 2⟩ [⟨⟨1⟩, 2, MEGABYTES 1⟩] = -(1/2) ∧
    ComputeBlobAccessScore ⟨1, 2⟩ [⟨⟨1⟩, 2, MEGABYTES 1⟩] < 0 := by
  constructor <;>
    norm_num [ComputeBlobAccessScore, NormalizeAccessScore, rawAccessScore,
      totalBlobSizeMB, BytesToMegabytes, MEGABYTES]

/-- C3: the divisor `range` that `NormalizeAccessScore` divides by is
exactly 0 in both edge cases — a pool whose min and max device
bandwidths coincide (here both 100, with a non-empty buffer list), and
an empty buffer list (total size 0, for any pool) — and the source
contains no guard around the division (IEEE f32 there yields NaN or an
infinity rather than the 0 the claim requires). -/
theorem normalizeAccessScore_zero_range_divisor :
    accessScoreRange ⟨100, 100⟩ (totalBlobSizeMB [⟨⟨1⟩, 100, MEGABYTES 1⟩]) = 0 ∧
    totalBlobSizeMB ([] : List BufferInfo) = 0 ∧
    accessScoreRange ⟨1, 2⟩ (totalBlobSizeMB ([] : List BufferInfo)) = 0 := by
  refine ⟨?_, ?_, ?_⟩ <;>
    norm_num [accessScoreRange, totalBlobSizeMB, BytesToMegabytes, MEGABYTES]

/-- C10: ComputeBlobAccessScore only combines its buffer list through
the two sums `rawAccessScore` and `totalBlobSizeMB`, so any permutation
of the buffer list yields the same score. -/
theorem computeBlobAccessScore_perm_invariant
    (pool : BufferPool) (l₁ l₂ : List BufferInfo) (h : l₁.Perm l₂) :
    ComputeBlobAccessScore pool l₁ = ComputeBlobAccessScore pool l₂ := by
  unfold ComputeBlobAccessScore rawAccessScore totalBlobSizeMB
  rw [(h.map _).sum_eq, (h.map _).sum_eq]

/-- C10 witness: a concrete two-element buffer list and its swap have
equal scores. -/
theorem computeBlobAccessScore_perm_invariant_witness :
    ComputeBlobAccessScore ⟨1, 4⟩ [⟨⟨1⟩, 2, 5⟩, ⟨⟨2⟩, 3, 7⟩] =
      ComputeBlobAccessScore ⟨1, 4⟩ [⟨⟨2⟩, 3, 7⟩, ⟨⟨1⟩, 2, 5⟩] :=
  computeBlobAccessScore_perm_invariant ⟨1, 4⟩ _ _
    (List.Perm.swap (⟨⟨2⟩, 3, 7⟩ : BufferInfo) ⟨⟨1⟩, 2, 5⟩ [])

theorem orderedInsert_perm (le : α → α → Bool) (a : α) :
    ∀ l : List α, (orderedInsert le a l).Perm (a :: l) := by
  intro l
  induction l with
  | nil => simp [orderedInsert]
  | cons b t ih =>
      by_cases h : le a b = true
      · simp [orderedInsert, h]
      · simp only [orderedInsert, h, Bool.false_eq_true, if_false]
        exact (ih.cons b).trans (List.Perm.swap a b t)

theorem stdSort_perm (le : α → α → Bool) :
    ∀ l : List α, (stdSort le l).Perm l := by
  intro l
  induction l with
  | nil => simp [stdSort]
  | cons a t ih =>
      exact (orderedInsert_perm le a (stdSort le t)).trans (ih.cons a)

theorem orderedInsert_pairwise (le : α → α → Bool)
    (htot : ∀ a b, le a b = true ∨ le b a = true)
    (htrans : ∀ a b c, le a b = true → le b c = true → le a c = true) (a : α) :
    ∀ l : List α, l.Pairwise (fun x y => le x y = true) →
      (orderedInsert le a l).Pairwise (fun x y => le x y = true) := by
  intro l
  induction l with
  | nil => simp [orderedInsert]
  | cons b t ih =>
      intro hp
      rw [List.pairwise_cons] at hp
      by_cases h : le a b = true
      · simp only [orderedInsert, h, if_true]
        refine List.pairwise_cons.2 ⟨?_, List.pairwise_cons.2 hp⟩
        intro x hx
        rcases List.mem_cons.1 hx with hx' | hx'
        · exact hx' ▸ h
        · exact htrans a b x h (hp.1 x hx')
      · simp only [orderedInsert, h, Bool.false_eq_true, if_false]
        refine List.pairwise_cons.2 ⟨?_, ih hp.2⟩
        intro x hx
        have hmem := (orderedInsert_perm le a t).mem_iff.1 hx
        rcases List.mem_cons.1 hmem with hx' | hx'
        · subst hx'
          rcases htot b x with hbx | hxb
          · exact hbx
          · exact absurd hxb h
        · exact hp.1 x hx'

theorem stdSort_pairwise (le : α → α → Bool)
    (htot : ∀ a b, le a b = true ∨ le b a = true)
    (htrans : ∀ a b c, le a b = true → le b c = true → le a c = true) :
    ∀ l : List α, (stdSort le l).Pairwise (fun x y => le x y = true) := by
  intro l
  induction l with
  | nil => simp [stdSort]
  | cons a t ih => exact orderedInsert_pairwise le htot htrans a _ ih

/-- C2 counterexample: on the two-target list with bandwidths 1 and 2,
`SortTargetInfo (v, false)` yields bandwidths [1, 2], which is not
non-increasing, and `SortTargetInfo (v, true)` yields [2, 1], which is
not non-decreasing — the opposite of the directions the claim states. -/
theorem sortTargetInfo_direction_counterexample :
    ¬ List.Sorted (· ≥ ·)
        ((SortTargetInfo [⟨⟨1⟩, 1, 0⟩, ⟨⟨2⟩, 2, 0⟩] false).map
          TargetInfo.bandwidth_mbps) ∧
    ¬ List.Sorted (· ≤ ·)
        ((SortTargetInfo [⟨⟨1⟩, 1, 0⟩, ⟨⟨2⟩, 2, 0⟩] true).map
          TargetInfo.bandwidth_mbps) := by
  decide

/-- C2 (amended): `SortTargetInfo (v, true)` orders bandwidths in
non-increasing order and `SortTargetInfo (v, false)` in non-decreasing
order (each output a permutation of the input) — i.e. the code examines
the fastest targets first when `increasing` is true, the slowest first
when it is false. -/
theorem sortTargetInfo_sorted (v : List TargetInfo) :
    List.Sorted (· ≥ ·)
        ((SortTargetInfo v true).map TargetInfo.bandwidth_mbps) ∧
    List.Sorted (· ≤ ·)
        ((SortTargetInfo v false).map TargetInfo.bandwidth_mbps) ∧
    (SortTargetInfo v true).Perm v ∧ (SortTargetInfo v false).Perm v := by
  refine ⟨?_, ?_, ?_, ?_⟩
  · have hp := stdSort_pairwise
      (fun a b : TargetInfo => !(increasing_target_info_comparator b a))
      (fun a b => by
        simp only [increasing_target_info_comparator, Bool.not_eq_true',
          decide_eq_false_iff_not, not_lt, gt_iff_lt]
        exact le_total b.bandwidth_mbps a.bandwidth_mbps)
      (fun a b c hab hbc => by
        simp only [increasing_target_info_comparator, Bool.not_eq_true',
          decide_eq_false_iff_not, not_lt, gt_iff_lt] at hab hbc ⊢
        exact le_trans hbc hab) v
    refine List.pairwise_map.2 (hp.imp ?_)
    intro a b h
    simpa only [increasing_target_info_comparator, Bool.not_eq_true',
      decide_eq_false_iff_not, not_lt, gt_iff_lt, ge_iff_le] using h
  · have hp := stdSort_pairwise
      (fun a b : TargetInfo => !(decreasing_target_info_comparator b a))
      (fun a b => by
        simp only [decreasing_target_info_comparator, Bool.not_eq_true',
          decide_eq_false_iff_not, not_lt]
        exact le_total a.bandwidth_mbps b.bandwidth_mbps)
      (fun a b c hab hbc => by
        simp only [decreasing_target_info_comparator, Bool.not_eq_true',
          decide_eq_false_iff_not, not_lt] at hab hbc ⊢
        exact le_trans hab hbc) v
    refine List.pairwise_map.2 (hp.imp ?_)
    intro a b h
    simpa only [decreasing_target_info_comparator, Bool.not_eq_true',
      decide_eq_false_iff_not, not_lt] using h
  · simpa only [SortTargetInfo, if_true] using
      stdSort_perm (fun a b : TargetInfo =>
        !(increasing_target_info_comparator b a)) v
  · simpa only [SortTargetInfo, Bool.false_eq_true, if_false] using
      stdSort_perm (fun a b : TargetInfo =>
        !(decreasing_target_info_comparator b a)) v

theorem boMoveLoop_spec (ctx : MoveContext) (blobData : List ℕ) :
    ∀ (dests : List BufferID) (offset remaining : ℕ),
      offset + remaining = blobData.length →
      remaining ≤ destCapacitySum ctx dests →
      (boMoveLoop ctx blobData dests offset remaining).2 = 0 ∧
      (((boMoveLoop ctx blobData dests offset remaining).1.map
        WriteOp.data).flatten = blobData.drop offset) ∧
      ∀ w ∈ (boMoveLoop ctx blobData dests offset remaining).1,
        ∃ h, ctx.headers w.dest = some h ∧ w.data.length ≤ h.capacity := by
  intro dests
  induction dests with
  | nil =>
      intro offset remaining hlen hcap
      have h0 : remaining = 0 := Nat.le_zero.1 (by simpa [destCapacitySum] using hcap)
      subst h0
      refine ⟨rfl, ?_, by simp [boMoveLoop]⟩
      simp only [boMoveLoop, List.map_nil, List.flatten_nil]
      rw [List.drop_eq_nil_of_le (by omega)]
  | cons d rest ih =>
      intro offset remaining hlen hcap
      rcases hd : ctx.headers d with _ | dh
      · have hcap' : remaining ≤ destCapacitySum ctx rest := by
          simpa [destCapacitySum, hd] using hcap
        have h := ih offset remaining hlen hcap'
        simp only [boMoveLoop, hd]
        exact h
      · have hps_le : min dh.capacity remaining ≤ remaining :=
          Nat.min_le_right _ _
        have hlen' : (offset + min dh.capacity remaining) +
            (remaining - min dh.capacity remaining) = blobData.length := by
          omega
        have hcap' : remaining - min dh.capacity remaining ≤
            destCapacitySum ctx rest := by
          have : destCapacitySum ctx (d :: rest) =
              dh.capacity + destCapacitySum ctx rest := by
            simp [destCapacitySum, hd]
          omega
        obtain ⟨h2, hflat, hall⟩ :=
          ih (offset + min dh.capacity remaining)
            (remaining - min dh.capacity remaining) hlen' hcap'
        refine ⟨by simpa [boMoveLoop, hd] using h2, ?_, ?_⟩
        · simp only [boMoveLoop, hd, List.map_cons, List.flatten_cons]
          rw [hflat, ← List.drop_drop]
          refine List.take_append_drop _ _
        · intro w hw
          simp only [boMoveLoop, hd, List.mem_cons] at hw
          rcases hw with hw | hw
          · subst hw
            exact ⟨dh, hd,
              le_trans (List.length_take_le _ _) (Nat.min_le_left _ _)⟩
          · exact hall w hw

/-- C4: whenever `BoMove` acquires the blob lock, the source header
resolves with `used` bytes actually present, every destination header
resolves, and the destinations' capacities sum to at least `used`, the
move succeeds: the final `remaining_src_size` is exactly 0 (the
assertion passes), each destination receives at most its capacity, and
the written portions concatenated in destination order are exactly the
`used` source bytes that were read. -/
theorem boMove_writes_cover_source (ctx : MoveContext) (src : BufferID)
    (dests : List BufferID) (blob_id : BlobID) (src_header : BufferHeader)
    (hlock : ctx.lockOk blob_id = true)
    (hsrc : ctx.headers src = some src_header)
    (hlen : src_header.used ≤ (ctx.contents src).length)
    (hcap : src_header.used ≤ destCapacitySum ctx dests) :
    ∃ ws, BoMove ctx src dests blob_id = some (ws, 0) ∧
      (∀ w ∈ ws, ∃ h, ctx.headers w.dest = some h ∧
        w.data.length ≤ h.capacity) ∧
      ((ws.map WriteOp.data).flatten =
        (ctx.contents src).take src_header.used) := by
  have hdl : ((ctx.contents src).take src_header.used).length =
      src_header.used := by
    simpa using Nat.min_eq_left hlen
  obtain ⟨h2, hflat, hall⟩ := boMoveLoop_spec ctx
    ((ctx.contents src).take src_header.used) dests 0 src_header.used
    (by omega) hcap
  refine ⟨(boMoveLoop ctx ((ctx.contents src).take src_header.used)
    dests 0 src_header.used).1, ?_, hall, by simpa using hflat⟩
  simp only [BoMove, hlock, if_true, hsrc]
  exact congrArg some (Prod.ext_iff.2 ⟨rfl, h2⟩)

/-- C4 witness: a 4-byte source split over two destinations of
capacities 2 and 5. -/
theorem boMove_writes_cover_source_witness :
    (let ctx : MoveContext :=
      ⟨fun b => if b.as_int = 1 then some ⟨4, 4⟩
        else if b.as_int = 2 then some ⟨2, 0⟩
        else if b.as_int = 3 then some ⟨5, 0⟩ else none,
       fun b => if b.as_int = 1 then [10, 11, 12, 13] else [],
       fun _ => true⟩
    ctx.lockOk ⟨9⟩ = true ∧ ctx.headers ⟨1⟩ = some ⟨4, 4⟩ ∧
      (4 : ℕ) ≤ (ctx.contents ⟨1⟩).length ∧
      (4 : ℕ) ≤ destCapacitySum ctx [⟨2⟩, ⟨3⟩] ∧
      ∃ ws, BoMove ctx ⟨1⟩ [⟨2⟩, ⟨3⟩] ⟨9⟩ = some (ws, 0) ∧
        (∀ w ∈ ws, ∃ h, ctx.headers w.dest = some h ∧
          w.data.length ≤ h.capacity) ∧
        ((ws.map WriteOp.data).flatten =
          (ctx.contents ⟨1⟩).take 4)) := by
  refine ⟨by decide, by decide, by decide, by decide, ?_⟩
  exact boMove_writes_cover_source _ ⟨1⟩ [⟨2⟩, ⟨3⟩] ⟨9⟩ ⟨4, 4⟩
    (by decide) (by decide) (by decide) (by decide)

/-- C5: with at least two resolvable destinations, the first write is
issued at offset 0 and the second write's `offset` argument equals the
number of bytes written to the first destination (the running source
offset), not 0. -/
theorem boMove_second_write_offset (ctx : MoveContext) (src d1 d2 : BufferID)
    (rest : List BufferID) (blob_id : BlobID)
    (src_header h1 h2 : BufferHeader)
    (hlock : ctx.lockOk blob_id = true)
    (hsrc : ctx.headers src = some src_header)
    (hlen : src_header.used ≤ (ctx.contents src).length)
    (hd1 : ctx.headers d1 = some h1)
    (hd2 : ctx.headers d2 = some h2) :
    ∃ w1 w2 ws r, BoMove ctx src (d1 :: d2 :: rest) blob_id =
        some (w1 :: w2 :: ws, r) ∧
      w1.dest = d1 ∧ w2.dest = d2 ∧ w1.offset = 0 ∧
      w2.offset = w1.data.length ∧
      w1.data.length = min h1.capacity src_header.used := by
  have hdl : ((ctx.contents src).take src_header.used).length =
      src_header.used := by
    simpa using Nat.min_eq_left hlen
  simp only [BoMove, hlock, if_true, hsrc, boMoveLoop, hd1, hd2]
  refine ⟨_, _, _, _, rfl, rfl, rfl, rfl, ?_, ?_⟩ <;>
    simp [hdl, Nat.min_le_right, Nat.min_le_left, Nat.min_assoc]

/-- C5 witness: the concrete move of the C4 witness, whose second write
is issued at offset 2 = the length of the first portion. -/
theorem boMove_second_write_offset_witness :
    (let ctx : MoveContext :=
      ⟨fun b => if b.as_int = 1 then some ⟨4, 4⟩
        else if b.as_int = 2 then some ⟨2, 0⟩
        else if b.as_int = 3 then some ⟨5, 0⟩ else none,
       fun b => if b.as_int = 1 then [10, 11, 12, 13] else [],
       fun _ => true⟩
    ∃ w1 w2 ws r, BoMove ctx ⟨1⟩ [⟨2⟩, ⟨3⟩] ⟨9⟩ = some (w1 :: w2 :: ws, r) ∧
      w1.dest = ⟨2⟩ ∧ w2.dest = ⟨3⟩ ∧ w1.offset = 0 ∧
      w2.offset = w1.data.length ∧
      w1.data.length = min 2 4) :=
  boMove_second_write_offset _ ⟨1⟩ ⟨2⟩ ⟨3⟩ [] ⟨9⟩ ⟨4, 4⟩ ⟨2, 0⟩ ⟨5, 0⟩
    (by decide) (by decide) (by decide) (by decide) (by decide)

theorem mem_gateEnqueue (incr : Bool) (imp new eps : ℚ) (src : BufferID)
    (dest : List BufferID) (m : MoveRecord)
    (hm : m ∈ gateEnqueue incr imp new eps src dest) :
    m.new_access_score = new ∧ m.src = src ∧ m.dest = dest ∧
      moveIsValid incr imp new eps = true := by
  by_cases hv : moveIsValid incr imp new eps = true
  · simp only [gateEnqueue, hv, if_true, List.mem_singleton] at hm
    subst hm
    exact ⟨rfl, rfl, rfl, hv⟩
  · simp [gateEnqueue, hv] at hm

theorem moveIsValid_gate (incr : Bool) (imp new eps : ℚ)
    (h : moveIsValid incr imp new eps = true) :
    (incr = true → ¬(new > imp ∧ new - imp > eps)) ∧
    (incr = false → ¬(new < imp ∧ imp - new > eps)) := by
  constructor <;> intro hincr <;> subst hincr <;>
    · simp only [moveIsValid, if_true, Bool.false_eq_true, if_false,
        Bool.not_eq_true', decide_eq_false_iff_not] at h
      exact h

theorem organizeLoop_gate (env : OrganizeEnv) (imp eps : ℚ) (incr : Bool)
    (full : List BufferInfo) :
    ∀ (pending : List BufferInfo) (m : MoveRecord),
      m ∈ organizeLoop env imp eps incr full pending →
      (incr = true →
        ¬(m.new_access_score > imp ∧ m.new_access_score - imp > eps)) ∧
      (incr = false →
        ¬(m.new_access_score < imp ∧ imp - m.new_access_score > eps)) := by
  intro pending
  induction pending with
  | nil => intro m hm; simp [organizeLoop] at hm
  | cons b rest ih =>
      intro m hm
      simp only [organizeLoop] at hm
      split at hm
      · exact ih m hm
      · split at hm
        · obtain ⟨hsc, -, -, hv⟩ := mem_gateEnqueue _ _ _ _ _ _ _ hm
          rw [hsc]
          exact moveIsValid_gate _ _ _ _ hv
        · rcases List.mem_append.1 hm with hm' | hm'
          · obtain ⟨hsc, -, -, hv⟩ := mem_gateEnqueue _ _ _ _ _ _ _ hm'
            rw [hsc]
            exact moveIsValid_gate _ _ _ _ hv
          · exact ih m hm'

/-- C6: every move enqueued by `LocalOrganizeBlob` passed the validity
gate: when the access score must increase, the predicted new score does
not exceed the importance score by more than epsilon, and when it must
decrease, the predicted new score does not fall below the importance
score by more than epsilon. -/
theorem localOrganizeBlob_no_overshoot (env : OrganizeEnv)
    (buffer_info_in : List BufferInfo)
    (explicit_score stored_score epsilon : ℚ) (m : MoveRecord)
    (hm : m ∈ LocalOrganizeBlob env buffer_info_in explicit_score
      stored_score epsilon) :
    (importanceScore explicit_score stored_score >
        ComputeBlobAccessScore env.pool buffer_info_in →
      ¬(m.new_access_score > importanceScore explicit_score stored_score ∧
        m.new_access_score - importanceScore explicit_score stored_score >
          epsilon)) ∧
    (¬(importanceScore explicit_score stored_score >
        ComputeBlobAccessScore env.pool buffer_info_in) →
      ¬(m.new_access_score < importanceScore explicit_score stored_score ∧
        importanceScore explicit_score stored_score - m.new_access_score >
          epsilon)) := by
  unfold LocalOrganizeBlob at hm
  have h := organizeLoop_gate env
    (importanceScore explicit_score stored_score) epsilon
    (decide (importanceScore explicit_score stored_score >
      ComputeBlobAccessScore env.pool buffer_info_in)) _ _ m hm
  constructor
  · intro himp
    exact h.1 (by simpa using himp)
  · intro himp
    exact h.2 (by simpa using himp)

theorem organizeRun_eval :
    LocalOrganizeBlob
        ⟨⟨1, 2⟩, [⟨⟨3⟩, 2, MEGABYTES 2⟩],
          fun s => if s.isEmpty then [] else [⟨9⟩]⟩
        [⟨⟨7⟩, 1, MEGABYTES 1⟩] 0 0 10 =
      [MoveRecord.mk ⟨7⟩ [⟨9⟩] BoPriority.kLow (-(1/2))] := by
  norm_num [LocalOrganizeBlob, organizeLoop, importanceScore,
    ComputeBlobAccessScore, NormalizeAccessScore, rawAccessScore,
    totalBlobSizeMB, BytesToMegabytes, MEGABYTES, SortBufferInfo,
    SortTargetInfo, stdSort, orderedInsert, findTarget, gateEnqueue,
    moveIsValid, decreasing_buffer_info_comparator,
    decreasing_target_info_comparator, List.isEmpty]

theorem organizeRun_mem :
    MoveRecord.mk ⟨7⟩ [⟨9⟩] BoPriority.kLow (-(1/2)) ∈
      LocalOrganizeBlob
        ⟨⟨1, 2⟩, [⟨⟨3⟩, 2, MEGABYTES 2⟩],
          fun s => if s.isEmpty then [] else [⟨9⟩]⟩
        [⟨⟨7⟩, 1, MEGABYTES 1⟩] 0 0 10 := by
  rw [organizeRun_eval]
  exact List.mem_singleton.2 rfl

set_option maxHeartbeats 2000000 in
/-- C6 witness: a concrete single-buffer organize run that enqueues one
move whose predicted score is -1/2, within the gate for importance 0 and
epsilon 10. -/
theorem localOrganizeBlob_no_overshoot_witness :
    (MoveRecord.mk ⟨7⟩ [⟨9⟩] BoPriority.kLow (-(1/2)) ∈
      LocalOrganizeBlob
        ⟨⟨1, 2⟩, [⟨⟨3⟩, 2, MEGABYTES 2⟩],
          fun s => if s.isEmpty then [] else [⟨9⟩]⟩
        [⟨⟨7⟩, 1, MEGABYTES 1⟩] 0 0 10) ∧
    ((importanceScore 0 0 >
        ComputeBlobAccessScore ⟨1, 2⟩ [⟨⟨7⟩, 1, MEGABYTES 1⟩] →
      ¬((MoveRecord.mk ⟨7⟩ [⟨9⟩] BoPriority.kLow
          (-(1/2))).new_access_score > importanceScore 0 0 ∧
        (MoveRecord.mk ⟨7⟩ [⟨9⟩] BoPriority.kLow
          (-(1/2))).new_access_score - importanceScore 0 0 > 10)) ∧
    (¬(importanceScore 0 0 >
        ComputeBlobAccessScore ⟨1, 2⟩ [⟨⟨7⟩, 1, MEGABYTES 1⟩]) →
      ¬((MoveRecord.mk ⟨7⟩ [⟨9⟩] BoPriority.kLow
          (-(1/2))).new_access_score < importanceScore 0 0 ∧
        importanceScore 0 0 - (MoveRecord.mk ⟨7⟩ [⟨9⟩] BoPriority.kLow
          (-(1/2))).new_access_score > 10))) :=
  ⟨organizeRun_mem,
    localOrganizeBlob_no_overshoot _ _ _ _ _ _ organizeRun_mem⟩

/-- C7 (amended): the organizer's selection is first-fit with a strict
comparison — `findTarget` returns the first target of the sorted list
whose remaining capacity is strictly greater than the source buffer's
size (a target whose capacity exactly equals the size is not eligible);
when no target qualifies and `GetBuffers` of an empty schema yields no
buffers, the buffer is skipped: the loop step contributes no move; and
every enqueued move's source and destinations come from a pending buffer
and its first qualifying target. -/
theorem organizeBlob_first_fit_strict :
    (∀ (ts : List TargetInfo) (size : ℕ),
      findTarget ts size = ts.find? fun t => decide (size < t.capacity)) ∧
    (∀ (env : OrganizeEnv) (imp eps : ℚ) (incr : Bool)
        (full : List BufferInfo) (b : BufferInfo) (rest : List BufferInfo),
      env.getBuffers [] = [] →
      findTarget (SortTargetInfo env.target_info incr) b.size = none →
      organizeLoop env imp eps incr full (b :: rest) =
        organizeLoop env imp eps incr full rest) ∧
    (∀ (env : OrganizeEnv) (imp eps : ℚ) (incr : Bool)
        (full pending : List BufferInfo) (m : MoveRecord),
      env.getBuffers [] = [] →
      m ∈ organizeLoop env imp eps incr full pending →
      ∃ b ∈ pending, ∃ t,
        findTarget (SortTargetInfo env.target_info incr) b.size = some t ∧
        m.src = b.id ∧ m.dest = env.getBuffers [(b.size, t.id)]) := by
  refine ⟨?_, ?_, ?_⟩
  · intro ts size
    induction ts with
    | nil => rfl
    | cons t rest ih =>
        by_cases h : t.capacity > size
        · rw [List.find?_cons_of_pos _ (by simpa using h)]
          simp [findTarget, h]
        · rw [List.find?_cons_of_neg _ (by simpa using h)]
          simp only [findTarget, h, if_false]
          exact ih
  · intro env imp eps incr full b rest hget hsel
    simp [organizeLoop, hsel, hget]
  · intro env imp eps incr full pending m hget
    induction pending with
    | nil => intro hm; simp [organizeLoop] at hm
    | cons b rest ih =>
        intro hm
        simp only [organizeLoop] at hm
        rcases hsel : findTarget (SortTargetInfo env.target_info incr) b.size
          with _ | t
        · rw [hsel] at hm
          simp only [hget, if_true] at hm
          obtain ⟨b', hb', rest'⟩ := ih hm
          exact ⟨b', List.mem_cons_of_mem b hb', rest'⟩
        · rw [hsel] at hm
          split at hm
          · obtain ⟨b', hb', rest'⟩ := ih hm
            exact ⟨b', List.mem_cons_of_mem b hb', rest'⟩
          · have hfromgate : ∀ hm' : m ∈ gateEnqueue incr imp
                (ComputeBlobAccessScore env.pool
                  (full.map fun x =>
                    if x.id.as_int = b.id.as_int then
                      { x with bandwidth_mbps := t.bandwidth_mbps }
                    else x)) eps b.id
                (env.getBuffers [(b.size, t.id)]),
                ∃ b' ∈ b :: rest, ∃ t',
                  findTarget (SortTargetInfo env.target_info incr) b'.size =
                    some t' ∧
                  m.src = b'.id ∧
                  m.dest = env.getBuffers [(b'.size, t'.id)] := by
              intro hm'
              obtain ⟨-, hsrc, hdest, -⟩ :=
                mem_gateEnqueue _ _ _ _ _ _ _ hm'
              exact ⟨b, List.mem_cons_self b rest, t, hsel, hsrc, hdest⟩
            split at hm
            · exact hfromgate hm
            · rcases List.mem_append.1 hm with hm' | hm'
              · exact hfromgate hm'
              · obtain ⟨b', hb', rest'⟩ := ih hm'
                exact ⟨b', List.mem_cons_of_mem b hb', rest'⟩

/-- C7 counterexample: a single target whose remaining capacity exactly
equals the buffer's size.  The claim calls such a target eligible, but
the code's strict comparison rejects it: `findTarget` returns `none` and
the whole organize run (with the same pool, importance and epsilon for
which the C6 configuration with a strictly larger target does enqueue a
move) enqueues nothing. -/
theorem organizeBlob_equal_capacity_skipped :
    (⟨⟨3⟩, 2, MEGABYTES 1⟩ : TargetInfo).capacity =
      (⟨⟨7⟩, 1, MEGABYTES 1⟩ : BufferInfo).size ∧
    findTarget [⟨⟨3⟩, 2, MEGABYTES 1⟩]
      (⟨⟨7⟩, 1, MEGABYTES 1⟩ : BufferInfo).size = none ∧
    LocalOrganizeBlob
      ⟨⟨1, 2⟩, [⟨⟨3⟩, 2, MEGABYTES 1⟩],
        fun s => if s.isEmpty then [] else [⟨9⟩]⟩
      [⟨⟨7⟩, 1, MEGABYTES 1⟩] 0 0 10 = [] :=
  ⟨by decide, by decide, of_decide_eq_true (by with_unfolding_all rfl)⟩

/-- C7 witness: at the equal-capacity input, no target is found and the
loop step for that buffer contributes no move. -/
theorem organizeBlob_first_fit_strict_witness :
    ((⟨⟨1, 2⟩, [⟨⟨3⟩, 2, MEGABYTES 1⟩],
        fun s => if s.isEmpty then [] else [⟨9⟩]⟩ :
      OrganizeEnv).getBuffers [] = []) ∧
    findTarget (SortTargetInfo [⟨⟨3⟩, 2, MEGABYTES 1⟩] false)
      (⟨⟨7⟩, 1, MEGABYTES 1⟩ : BufferInfo).size = none ∧
    organizeLoop
        ⟨⟨1, 2⟩, [⟨⟨3⟩, 2, MEGABYTES 1⟩],
          fun s => if s.isEmpty then [] else [⟨9⟩]⟩
        0 10 false [⟨⟨7⟩, 1, MEGABYTES 1⟩]
        [⟨⟨7⟩, 1, MEGABYTES 1⟩] =
      organizeLoop
        ⟨⟨1, 2⟩, [⟨⟨3⟩, 2, MEGABYTES 1⟩],
          fun s => if s.isEmpty then [] else [⟨9⟩]⟩
        0 10 false [⟨⟨7⟩, 1, MEGABYTES 1⟩] [] :=
  ⟨by decide, by decide,
    organizeBlob_first_fit_strict.2.1 _ 0 10 false _ _ _
      (by decide) (by decide)⟩

/-- C8: for every accepted async flush, the counter is incremented
exactly once before dispatch and decremented exactly once by the
completed `FlushBlob` body — on every completion path, including the one
where the blob lock is not acquired — and the combined trace changes the
counter by net zero. -/
theorem flushCount_balanced (blobIsInSwap : Bool) (env : FlushEnv)
    (async : Bool) (trace : List FlushEvent)
    (hres : (LocalEnqueueFlushingTask blobIsInSwap).result = true)
    (hdisp : (LocalEnqueueFlushingTask blobIsInSwap).dispatched = some async)
    (hrun : FlushBlob env async = some trace) :
    (LocalEnqueueFlushingTask blobIsInSwap).pre_events.count
        FlushEvent.incrementFlushCount = 1 ∧
    trace.count FlushEvent.decrementFlushCount = 1 ∧
    trace.count FlushEvent.incrementFlushCount = 0 ∧
    (((LocalEnqueueFlushingTask blobIsInSwap).pre_events ++ trace).count
        FlushEvent.incrementFlushCount : ℤ) -
      (((LocalEnqueueFlushingTask blobIsInSwap).pre_events ++ trace).count
        FlushEvent.decrementFlushCount : ℤ) = 0 := by
  cases blobIsInSwap with
  | true => simp [LocalEnqueueFlushingTask] at hres
  | false =>
      have hasync : async = true := by
        simpa [LocalEnqueueFlushingTask] using hdisp
      subst hasync
      obtain ⟨l, o, fe, fu, c⟩ := env
      cases l <;> cases o <;> cases fe <;> cases fu <;> cases c <;>
        simp_all [FlushBlob, flushFileEvents, LocalEnqueueFlushingTask,
          List.count_append, List.count_cons, List.count_nil] <;>
        (subst hrun; decide)

/-- C8 witness: the all-successful async flush of a non-swap blob. -/
theorem flushCount_balanced_witness :
    ((LocalEnqueueFlushingTask false).result = true ∧
      (LocalEnqueueFlushingTask false).dispatched = some true ∧
      FlushBlob ⟨true, true, true, true, true⟩ true =
        some [FlushEvent.lockBlob, FlushEvent.openFile, FlushEvent.flockEx,
          FlushEvent.persistBlob, FlushEvent.flockUn, FlushEvent.closeFile,
          FlushEvent.unlockBlob, FlushEvent.decrementFlushCount]) ∧
    ((LocalEnqueueFlushingTask false).pre_events.count
        FlushEvent.incrementFlushCount = 1 ∧
      (List.count FlushEvent.decrementFlushCount
        [FlushEvent.lockBlob, FlushEvent.openFile, FlushEvent.flockEx,
          FlushEvent.persistBlob, FlushEvent.flockUn, FlushEvent.closeFile,
          FlushEvent.unlockBlob, FlushEvent.decrementFlushCount]) = 1 ∧
      (List.count FlushEvent.incrementFlushCount
        [FlushEvent.lockBlob, FlushEvent.openFile, FlushEvent.flockEx,
          FlushEvent.persistBlob, FlushEvent.flockUn, FlushEvent.closeFile,
          FlushEvent.unlockBlob, FlushEvent.decrementFlushCount]) = 0 ∧
      ((((LocalEnqueueFlushingTask false).pre_events ++
          [FlushEvent.lockBlob, FlushEvent.openFile, FlushEvent.flockEx,
            FlushEvent.persistBlob, FlushEvent.flockUn, FlushEvent.closeFile,
            FlushEvent.unlockBlob, FlushEvent.decrementFlushCount]).count
          FlushEvent.incrementFlushCount : ℤ) -
        (((LocalEnqueueFlushingTask false).pre_events ++
          [FlushEvent.lockBlob, FlushEvent.openFile, FlushEvent.flockEx,
            FlushEvent.persistBlob, FlushEvent.flockUn, FlushEvent.closeFile,
            FlushEvent.unlockBlob, FlushEvent.decrementFlushCount]).count
          FlushEvent.decrementFlushCount : ℤ) = 0)) :=
  ⟨⟨by decide, by decide, by decide⟩,
    flushCount_balanced false ⟨true, true, true, true, true⟩ true _
      (by decide) (by decide) (by decide)⟩

/-- C9: deserializing the serialization of each serializable value — the
five packed ID unions, SwapBlob, BufferInfo, BoTask for every
BoOperation, ViolationInfo, PrefetchContext — recovers the value and
leaves the remainder of the archive untouched. -/
theorem serialization_roundtrip :
    (∀ (x : BufferID) (rest : List WireVal),
      deserializeBufferID (serializeBufferID x ++ rest) = some (x, rest)) ∧
    (∀ (x : BucketID) (rest : List WireVal),
      deserializeBucketID (serializeBucketID x ++ rest) = some (x, rest)) ∧
    (∀ (x : VBucketID) (rest : List WireVal),
      deserializeVBucketID (serializeVBucketID x ++ rest) = some (x, rest)) ∧
    (∀ (x : BlobID) (rest : List WireVal),
      deserializeBlobID (serializeBlobID x ++ rest) = some (x, rest)) ∧
    (∀ (x : TargetID) (rest : List WireVal),
      deserializeTargetID (serializeTargetID x ++ rest) = some (x, rest)) ∧
    (∀ (x : SwapBlob) (rest : List WireVal),
      deserializeSwapBlob (serializeSwapBlob x ++ rest) = some (x, rest)) ∧
    (∀ (x : BufferInfo) (rest : List WireVal),
      deserializeBufferInfo (serializeBufferInfo x ++ rest) =
        some (x, rest)) ∧
    (∀ (x : BoTask) (rest : List WireVal),
      deserializeBoTask (serializeBoTask x ++ rest) = some (x, rest)) ∧
    (∀ (x : ViolationInfo) (rest : List WireVal),
      deserializeViolationInfo (serializeViolationInfo x ++ rest) =
        some (x, rest)) ∧
    (∀ (x : PrefetchContext) (rest : List WireVal),
      deserializePrefetchContext (serializePrefetchContext x ++ rest) =
        some (x, rest)) := by
  refine ⟨fun x rest => rfl, fun x rest => rfl, fun x rest => rfl,
    fun x rest => rfl, fun x rest => rfl, fun x rest => rfl,
    fun x rest => rfl, ?_, fun x rest => rfl, fun x rest => rfl⟩
  intro t rest
  obtain ⟨op, args⟩ := t
  cases op <;> rfl

end Hermes
